import Mathlib

/-!
Verification of the VibeFix request-orchestration core.

This file gives a shallow embedding, in Lean, of the VibeFix service module
(`analyzeBug`, `generateWithRetry`, `fileToGenerativePart`, the prompt
assembly, the fence-stripping response decoder) and of the small client-side
conversation state machine in `App.tsx`, together with theorems settling the
behavioural claims about that code.

Conventions of the embedding:
  - JavaScript strings are Lean `String`s; character-level work is done on
    `List Char` via `String.data`.
  - The asynchronous network call is modelled by an oracle
    `ℕ → Except String (Option String)` giving, per attempt index, either a
    thrown error (its `.message`) or a response (its optional `.text`).
  - `Math.random()*500` jitter is an oracle `ℕ → ℕ` (milliseconds); the only
    fact used about it is the bound `< 500`.
  - `setTimeout` delays are recorded as data (a list of waited milliseconds),
    not executed.
  - `JSON.parse` is embedded as an executable parser of the JSON grammar
    (numbers are kept as their lexemes — no claim below inspects numeric
    values; `\uXXXX` escapes are decoded per code unit, surrogate pairing is
    not modelled — no claim involves non-ASCII text).
-/

namespace VibeFix

/-! ## Character classes and basic string helpers -/

/-- JSON whitespace, as accepted by `JSON.parse` (ECMA-404): space, tab,
line feed, carriage return. -/
def wsJson (c : Char) : Bool :=
  c = ' ' || c = '\t' || c = '\n' || c = '\r'

/-- JavaScript whitespace as matched by the regex class `\s` and trimmed by
`String.prototype.trim`: the JSON set plus vertical tab, form feed, NBSP and
the BOM (further exotic Unicode space separators are not modelled; no input
in this development contains them). -/
def wsJs (c : Char) : Bool :=
  wsJson c || c = '\x0b' || c = '\x0c' || c = ' ' || c = '﻿'

/-- Drop trailing characters satisfying `p` (mirror image of `dropWhile`). -/
def rdropWhile (p : Char → Bool) (l : List Char) : List Char :=
  (l.reverse.dropWhile p).reverse

/-- JavaScript `s.trim()` on character lists, with the JavaScript whitespace class. -/
def trimJs (l : List Char) : List Char :=
  rdropWhile wsJs (l.dropWhile wsJs)

/-- Leading/trailing-whitespace removal with the JSON whitespace class
(the implicit `ws value ws` wrapping of the top-level JSON grammar). -/
def trimJson (l : List Char) : List Char :=
  rdropWhile wsJson (l.dropWhile wsJson)

/-- Model of `String.prototype.includes`: `pat` occurs as a contiguous substring. -/
def containsSub (l pat : List Char) : Bool :=
  l.tails.any (fun t => pat.isPrefixOf t)

/-- Model of `String.prototype.trim` on strings. -/
def jsTrim (s : String) : String := String.mk (trimJs s.data)

/-- Model of `String.prototype.toLowerCase` (ASCII; all inputs here are ASCII). -/
def lowerStr (s : String) : String :=
  String.mk (s.data.map Char.toLower)

/-! ## Request Dispatcher with Retry (`generateWithRetry`) -/

/-- The check `msg.includes('429') || msg.toLowerCase().includes('quota')` — the
quota classification used both by the retry loop and the fallback gate. -/
def isQuotaMsg (msg : String) : Bool :=
  containsSub msg.data "429".data || containsSub (lowerStr msg).data "quota".data

/-- The check `msg.includes('503') || msg.includes('500')` — the server-fault
classification of the retry loop. -/
def isServerMsg (msg : String) : Bool :=
  containsSub msg.data "503".data || containsSub msg.data "500".data

/-- The transient classification of `generateWithRetry`:
`isQuota || isServer`. -/
def isTransientMsg (msg : String) : Bool :=
  isQuotaMsg msg || isServerMsg msg

/-- Outcome of one `ai.models.generateContent` attempt: a thrown error's
`.message`, or a response carrying its optional `.text`. -/
abbrev Attempt := Except String (Option String)

/-- Result of a `generateWithRetry` run: the value returned/thrown, the
`setTimeout` delays that were awaited (in order, milliseconds), and the
number of `generateContent` attempts that were issued. -/
structure RetryRun where
  result : Except String (Option String)
  delays : List ℕ
  attempts : ℕ

/-- The body of `generateWithRetry`'s `for (let i = 0; i < retries; i++)`
loop, at loop index `i` with `remaining = retries - i` iterations left.
An attempt is retried iff its error is transient and `i < retries - 1`
(equivalently: more than one iteration remains); the backoff before the
retry is `2^i * 1000 + jitter` milliseconds. The `remaining = 0` case is
the loop running off the end (`throw lastError`), unreachable from any
positive `retries`; it is modelled as an empty error. -/
def retryAux (att : ℕ → Attempt) (jit : ℕ → ℕ) : ℕ → ℕ → RetryRun
  | _, 0 => ⟨.error "", [], 0⟩
  | i, remaining + 1 =>
    match att i with
    | .ok r => ⟨.ok r, [], 1⟩
    | .error msg =>
      if isTransientMsg msg && decide (0 < remaining) then
        let d := 2 ^ i * 1000 + jit i
        let rest := retryAux att jit (i + 1) remaining
        ⟨rest.result, d :: rest.delays, rest.attempts + 1⟩
      else ⟨.error msg, [], 1⟩

/-- The call `generateWithRetry(ai, model, contents, config, retries = 3)`, as a
function of the per-attempt outcome oracle and the jitter oracle. -/
def generateWithRetry (att : ℕ → Attempt) (jit : ℕ → ℕ) (retries : ℕ := 3) : RetryRun :=
  retryAux att jit 0 retries

/-! ## Model Fallback Policy (the inner `try`/`catch` of `analyzeBug`) -/

/-- The premium model identifier gating the fallback. -/
def premiumModel : String := "gemini-3-pro-preview"

/-- The secondary model used by the fallback. -/
def fallbackModel : String := "gemini-2.5-flash"

/-- Result of the dispatch-with-fallback block of `analyzeBug`: the response
or error it produces, and the `generateWithRetry` invocations it issued, in
order, each recorded as (model identifier, contents). Both invocations pass
the same `contents` (and `config`), so the contents argument appears
unchanged in every recorded call. -/
structure DispatchRun where
  result : Except String (Option String)
  calls : List (String × String)

/-- The inner `try { response = await generateWithRetry(...) } catch ... `
block of `analyzeBug`: dispatch to `modelName`; if that fails and
`modelName === 'gemini-3-pro-preview'` with a quota-classified message, one
re-dispatch to `'gemini-2.5-flash'`; if the fallback also fails, the
*primary* error is rethrown. `primAtt`/`fbAtt` are the attempt oracles of
the two `generateWithRetry` runs. -/
def analyzeDispatch (modelName contents : String) (primAtt fbAtt : ℕ → Attempt)
    (jit : ℕ → ℕ) : DispatchRun :=
  let prim := generateWithRetry primAtt jit 3
  match prim.result with
  | .ok r => ⟨.ok r, [(modelName, contents)]⟩
  | .error msg =>
    if modelName = premiumModel && isQuotaMsg msg then
      let fb := generateWithRetry fbAtt jit 3
      match fb.result with
      | .ok r => ⟨.ok r, [(modelName, contents), (fallbackModel, contents)]⟩
      | .error _ => ⟨.error msg, [(modelName, contents), (fallbackModel, contents)]⟩
    else ⟨.error msg, [(modelName, contents)]⟩

/-! ## `JSON.parse` -/

/-- JSON values. Numbers are kept as their source lexeme: no claim below
compares numeric values across distinct lexemes. Objects are the member
list in source order (JavaScript objects keep insertion order; no input in
this development has duplicate keys). -/
inductive Json where
  | null : Json
  | bool (b : Bool) : Json
  | num (lexeme : String) : Json
  | str (s : String) : Json
  | arr (elems : List Json) : Json
  | obj (members : List (String × Json)) : Json

/-- Key lookup used to express (missing) required fields of a report. -/
def Json.hasField : Json → String → Bool
  | .obj ms, k => ms.any (fun m => m.1 == k)
  | _, _ => false

def isHexDigit (c : Char) : Bool :=
  c.isDigit || ('a' ≤ c && c ≤ 'f') || ('A' ≤ c && c ≤ 'F')

def hexVal (c : Char) : ℕ :=
  if c.isDigit then c.toNat - '0'.toNat
  else if 'a' ≤ c && c ≤ 'f' then c.toNat - 'a'.toNat + 10
  else c.toNat - 'A'.toNat + 10

/-- Body of a JSON string literal (after the opening quote): scan up to the
closing quote, decoding escapes; raw control characters are a syntax error.
`fuel` exceeds the input length at every call site. -/
def parseStrAux (acc : List Char) : ℕ → List Char → Option (String × List Char)
  | 0, _ => none
  | _ + 1, [] => none
  | fuel + 1, c :: l =>
    if c = '"' then some (String.mk acc.reverse, l)
    else if c = '\\' then
      match l with
      | [] => none
      | e :: l2 =>
        if e = '"' then parseStrAux ('"' :: acc) fuel l2
        else if e = '\\' then parseStrAux ('\\' :: acc) fuel l2
        else if e = '/' then parseStrAux ('/' :: acc) fuel l2
        else if e = 'b' then parseStrAux ('\x08' :: acc) fuel l2
        else if e = 'f' then parseStrAux ('\x0c' :: acc) fuel l2
        else if e = 'n' then parseStrAux ('\n' :: acc) fuel l2
        else if e = 'r' then parseStrAux ('\r' :: acc) fuel l2
        else if e = 't' then parseStrAux ('\t' :: acc) fuel l2
        else if e = 'u' then
          match l2 with
          | h1 :: h2 :: h3 :: h4 :: l3 =>
            if isHexDigit h1 && isHexDigit h2 && isHexDigit h3 && isHexDigit h4 then
              let n := ((hexVal h1 * 16 + hexVal h2) * 16 + hexVal h3) * 16 + hexVal h4
              parseStrAux (Char.ofNat n :: acc) fuel l3
            else none
          | _ => none
        else none
    else if c.toNat < 32 then none
    else parseStrAux (c :: acc) fuel l

/-- A JSON string literal, including the opening quote. -/
def parseStrLit (fuel : ℕ) : List Char → Option (String × List Char)
  | '"' :: l => parseStrAux [] fuel l
  | _ => none

/-- A JSON number: `-? (0 | [1-9][0-9]*) frac? exp?`, returned as its
lexeme. Maximal-munch; malformed tails (`1.`, `1e`) fail the literal, as
`JSON.parse` rejects them wherever they can occur. -/
def parseNum (l : List Char) : Option (Json × List Char) :=
  let (sign, l1) := match l with
    | '-' :: t => (['-'], t)
    | t => (([] : List Char), t)
  match l1 with
  | [] => none
  | d :: _ =>
    if ¬ d.isDigit then none else
    let (intPart, l2) : List Char × List Char :=
      if d = '0' then (['0'], l1.drop 1)
      else (l1.takeWhile Char.isDigit, l1.dropWhile Char.isDigit)
    let (fracPart, l3) : List Char × List Char :=
      match l2 with
      | '.' :: t =>
        let ds := t.takeWhile Char.isDigit
        if ds = [] then (['!'], t) else ('.' :: ds, t.dropWhile Char.isDigit)
      | t => ([], t)
    if fracPart = ['!'] then none else
    let (expPart, l4) : List Char × List Char :=
      match l3 with
      | e :: t =>
        if e = 'e' || e = 'E' then
          let (es, t1) : List Char × List Char := match t with
            | '+' :: t1 => (['+'], t1)
            | '-' :: t1 => (['-'], t1)
            | t1 => ([], t1)
          let ds := t1.takeWhile Char.isDigit
          if ds = [] then (['!'], t) else (e :: (es ++ ds), t1.dropWhile Char.isDigit)
        else ([], e :: t)
      | t => ([], t)
    if expPart = ['!'] then none
    else some (.num (String.mk (sign ++ intPart ++ fracPart ++ expPart)), l4)

/-- Skip JSON whitespace. -/
def skipJ (l : List Char) : List Char := l.dropWhile wsJson

mutual

/-- A JSON value, input already positioned at its first character.
`fuel` strictly bounds recursion; the budget supplied by `jsonParse`
suffices for every input (array/object punctuation costs at most two fuel
per input character). -/
def parseVal : ℕ → List Char → Option (Json × List Char)
  | 0, _ => none
  | _ + 1, [] => none
  | fuel + 1, c :: l =>
    if c = '\x7b' then
      match skipJ l with
      | '\x7d' :: r => some (.obj [], r)
      | l1 => parseMembers fuel l1
    else if c = '[' then
      match skipJ l with
      | ']' :: r => some (.arr [], r)
      | l1 => parseElems fuel l1
    else if c = '"' then
      (parseStrLit (l.length + 1) (c :: l)).map (fun p => (.str p.1, p.2))
    else if c = 't' then
      if "rue".data.isPrefixOf l then some (.bool true, l.drop 3) else none
    else if c = 'f' then
      if "alse".data.isPrefixOf l then some (.bool false, l.drop 4) else none
    else if c = 'n' then
      if "ull".data.isPrefixOf l then some (.null, l.drop 3) else none
    else if c = '-' || c.isDigit then parseNum (c :: l)
    else none

/-- Object members from the first key onward, consuming the closing brace. -/
def parseMembers : ℕ → List Char → Option (Json × List Char)
  | 0, _ => none
  | fuel + 1, l =>
    match parseStrLit (l.length + 1) l with
    | none => none
    | some (k, r1) =>
      match skipJ r1 with
      | ':' :: r2 =>
        match parseVal fuel (skipJ r2) with
        | none => none
        | some (v, r3) =>
          match skipJ r3 with
          | ',' :: r4 =>
            match parseMembers fuel (skipJ r4) with
            | some (.obj ms, r5) => some (.obj ((k, v) :: ms), r5)
            | _ => none
          | '\x7d' :: r4 => some (.obj [(k, v)], r4)
          | _ => none
      | _ => none

/-- Array elements from the first element onward, consuming the closing
bracket. -/
def parseElems : ℕ → List Char → Option (Json × List Char)
  | 0, _ => none
  | fuel + 1, l =>
    match parseVal fuel l with
    | none => none
    | some (v, r1) =>
      match skipJ r1 with
      | ',' :: r2 =>
        match parseElems fuel (skipJ r2) with
        | some (.arr es, r3) => some (.arr (v :: es), r3)
        | _ => none
      | ']' :: r2 => some (.arr [v], r2)
      | _ => none

end

/-- Model of `JSON.parse`: trim the ECMA-404 `ws value ws` wrapping, parse one value,
require the input to be exhausted. `none` is a `SyntaxError`. -/
def jsonParse (s : String) : Option Json :=
  let t := trimJson s.data
  match parseVal (4 * t.length + 16) t with
  | some (j, []) => some j
  | _ => none

/-! ## Response Decoder (fence stripping + parse, `analyzeBug` lines 246-254) -/

/-- The three-backtick fence marker. -/
def fenceChars : List Char := "```".data

/-- The replace of leading fences, regex caret-backtick-backtick-backtick
with optional `json` tag and trailing whitespace class: if the text starts with a
fence (optionally tagged `json`), remove it and the following whitespace;
otherwise the regex does not match and the text is unchanged. The greedy
optional `json` group means a `` ```json `` head is always taken whole. -/
def stripLeadingFence (l : List Char) : List Char :=
  if "```json".data.isPrefixOf l then (l.drop 7).dropWhile wsJs
  else if "```".data.isPrefixOf l then (l.drop 3).dropWhile wsJs
  else l

/-- The replace of the trailing fence (whitespace class, three backticks,
end anchor): if the text ends with a fence,
remove it and the whitespace run immediately before it (the leftmost match
of `\s*```$`); otherwise unchanged. -/
def stripTrailingFence (l : List Char) : List Char :=
  if fenceChars.isSuffixOf l then rdropWhile wsJs (l.take (l.length - 3))
  else l

/-- Lines 250-252 of `analyzeBug`:
`if (resultText.trim().startsWith('```')) { strip leading; strip trailing }`. -/
def stripFences (l : List Char) : List Char :=
  if fenceChars.isPrefixOf (trimJs l) then stripTrailingFence (stripLeadingFence l)
  else l

/-- The decoder's failure classes: `EmptyResponseError`
("Received empty response from Gemini.") and the `SyntaxError` of
`JSON.parse` (its engine-specific message is not modelled). -/
inductive DecodeErr where
  | empty : DecodeErr
  | unparseable : DecodeErr
deriving DecidableEq

/-- Lines 246-254 of `analyzeBug`: given the response's optional `.text`,
fail on a missing/empty text, strip fences, `JSON.parse` the remainder and
return the result as the report — an unchecked `as BugReport` cast: the
parsed value is returned whatever its shape. -/
def decodeResponse (text : Option String) : Except DecodeErr Json :=
  match text with
  | none => .error .empty
  | some t =>
    if t = "" then .error .empty
    else
      match jsonParse (String.mk (stripFences t.data)) with
      | some j => .ok j
      | none => .error .unparseable

/-! ## Content Encoder (`fileToGenerativePart`) -/

/-- A browser `File` as the encoder sees it: the data-URL string that
`FileReader.readAsDataURL` produces for it (empty models the falsy
`reader.result` of a failed read; the `onerror` path is likewise a read
failure and is not distinguished), and its `type` attribute. -/
structure VFile where
  dataUrl : String
  fileType : String

/-- The expression `result.includes(',') ? result.split(',')[1] : result` — the base64
payload of a data URL (the piece between the first and second comma). -/
def extractBase64 (s : String) : String :=
  if containsSub s.data ",".data then ((s.splitOn ",").drop 1).headD "" else s

/-- The provider's inline-data part. -/
structure Part where
  data : String
  mimeType : String

/-- Model of `fileToGenerativePart`: reject an unreadable file, otherwise produce
`(inlineData: (data: base64, mimeType: file.type or "video/mp4"))`. -/
def fileToGenerativePart (f : VFile) : Except String Part :=
  if f.dataUrl = "" then .error "Failed to read file"
  else .ok ⟨extractBase64 f.dataUrl, if f.fileType = "" then "video/mp4" else f.fileType⟩

/-! ## Conversation data model (`types.ts`) -/

/-- The structured output contract. -/
structure BugReport where
  bug_summary : String
  user_sentiment : String
  file_to_edit : String
  explanation : String
  code_patch : String
deriving DecidableEq

inductive Role where
  | user : Role
  | model : Role
deriving DecidableEq

/-- One turn of the conversation: `role`, free text or a structured report,
and a display timestamp. -/
structure ChatEntry where
  role : Role
  content : String ⊕ BugReport
  timestamp : ℕ
deriving DecidableEq

/-! ## Prompt Assembler (`analyzeBug` lines 185-213) -/

/-- The `JSON.stringify` escaping of one character inside a string literal. -/
def jsonEscapeChar (c : Char) : String :=
  if c = '"' then "\\\""
  else if c = '\\' then "\\\\"
  else if c = '\x08' then "\\b"
  else if c = '\t' then "\\t"
  else if c = '\n' then "\\n"
  else if c = '\x0c' then "\\f"
  else if c = '\r' then "\\r"
  else if c.toNat < 32 then
    "\\u00" ++ String.mk [(Nat.digitChar (c.toNat / 16)), (Nat.digitChar (c.toNat % 16))]
  else String.mk [c]

/-- A `JSON.stringify` string literal. -/
def jsonQuote (s : String) : String :=
  "\"" ++ String.join (s.data.map jsonEscapeChar) ++ "\""

/-- The `JSON.stringify` form of a `BugReport` object: members in insertion order
(the declared field order), no added whitespace. -/
def stringifyReport (r : BugReport) : String :=
  "\x7b\"bug_summary\":" ++ jsonQuote r.bug_summary ++
  ",\"user_sentiment\":" ++ jsonQuote r.user_sentiment ++
  ",\"file_to_edit\":" ++ jsonQuote r.file_to_edit ++
  ",\"explanation\":" ++ jsonQuote r.explanation ++
  ",\"code_patch\":" ++ jsonQuote r.code_patch ++ "\x7d"

/-- One iteration of the `history.forEach` serializer: user turns with
string content become `User: ...` lines, model turns become `VibeFix: ...`
lines (structured content via `JSON.stringify`); a user turn whose content
is not a string is skipped by the `typeof` guard. -/
def serializeEntry (e : ChatEntry) : String :=
  match e.role, e.content with
  | .user, .inl s => "User: " ++ s ++ "\n"
  | .user, .inr _ => ""
  | .model, .inl s => "VibeFix: " ++ s ++ "\n"
  | .model, .inr r => "VibeFix: " ++ stringifyReport r ++ "\n"

/-- The `forEach` accumulation over the whole history, in order. -/
def serializeHistory : List ChatEntry → String
  | [] => ""
  | e :: h => serializeEntry e ++ serializeHistory h

/-- The assembled `promptText`: the code embedded verbatim in a
triple-backtick block, a directive that depends on media presence, and —
for non-empty history — the serialized history followed by the trailing
refinement instruction. -/
def assemblePrompt (codeContext : String) (hasVideo : Bool) (history : List ChatEntry) :
    String :=
  let p1 := "\n  Here is the relevant source code:\n  ```\n  " ++ codeContext ++
    "\n  ```\n  "
  let p2 := p1 ++
    (if hasVideo then
      "\nPlease analyze the attached video and this code to find the bug and provide a fix."
     else
      "\nNo video was provided. Please analyze this code for bugs, logic errors, or styling issues.")
  if history.isEmpty then p2
  else p2 ++ "\n\n--- Conversation History ---\n" ++ serializeHistory history ++
    "\n\nUser's Latest Feedback: Please refine the fix based on the above history."

/-! ## `analyzeBug` end to end -/

/-- The structured failure classes of `analyzeBug`; `surfaceMessage` below
gives the human-readable message each one is thrown with. -/
inductive AErr where
  | configMissing : AErr
  | videoFail (cause : String) : AErr
  | apiErr (message : String) : AErr
  | emptyResp : AErr
  | parseFail : AErr
deriving DecidableEq

/-- The message-annotation ladder of `analyzeBug`'s outer `catch`
(lines 260-272): append a likely-cause hint keyed on status substrings. -/
def annotateError (modelName msg : String) : String :=
  if containsSub msg.data "404".data then
    msg ++ " (Model '" ++ modelName ++ "' not found. Your API key might not have access to this model.)"
  else if containsSub msg.data "400".data then
    msg ++ " (Bad Request. Check if the video format is supported or if the input is too large.)"
  else if containsSub msg.data "403".data then
    msg ++ " (Permission Denied. Check your API Key.)"
  else if isQuotaMsg msg then
    msg ++ " (Quota Exceeded. Please try again later or switch to Gemini 2.5 Flash.)"
  else msg

/-- The message carried by the single `Error` that `analyzeBug` rethrows
(the engine-specific detail of a `SyntaxError` is not modelled, nor the
remote chance of digit substrings of such a message hitting an earlier
annotation branch). -/
def surfaceMessage (modelName : String) : AErr → String
  | .configMissing => "API Key is missing. Please ensure process.env.API_KEY is correctly configured."
  | .videoFail cause => "Failed to process video file: " ++ cause
  | .apiErr m => annotateError modelName m
  | .emptyResp => annotateError modelName "Received empty response from Gemini."
  | .parseFail => "Failed to parse JSON response from model. "

/-- Observable side effects of one `analyzeBug` call: a
`fileToGenerativePart` invocation, or one `generateWithRetry` dispatch to a
model. -/
inductive Ev where
  | encode : Ev
  | call (model : String) : Ev
deriving DecidableEq

/-- Whether an event is a Content Encoder invocation. -/
def Ev.isEnc : Ev → Bool
  | .encode => true
  | .call _ => false

/-- Number of Content Encoder invocations in a trace. -/
def countEncode (t : List Ev) : ℕ :=
  (t.filter Ev.isEnc).length

/-- What one `analyzeBug` call produces: its value or error, its effect
trace, and the caller's `history` array as the call leaves it (the code
never writes to it, so every branch returns it unchanged). -/
structure CallResult where
  result : Except AErr Json
  events : List Ev
  histOut : List ChatEntry

/-- Per-call nondeterminism: the attempt oracles of the primary and the
fallback `generateWithRetry` runs, and the jitter oracle. -/
structure World where
  primAtt : ℕ → Attempt
  fbAtt : ℕ → Attempt
  jit : ℕ → ℕ

/-- The tail of the `analyzeBug` `try` block: a dispatch error is rethrown
(for the outer annotation ladder), a response is decoded. -/
def finishCall : Except String (Option String) → Except AErr Json
  | .error msg => .error (.apiErr msg)
  | .ok text =>
    match decodeResponse text with
    | .ok j => .ok j
    | .error .empty => .error .emptyResp
    | .error .unparseable => .error .parseFail

/-- The whole of `analyzeBug(videoFile, codeContext, history, modelName)`
(README version, lines 159-276): credential precondition, optional video
encoding, prompt assembly, dispatch with retry and fallback, and response
decoding. The dispatch request is identified by its prompt text; the
encoded video part rides along in the real request and is represented by
its `.encode` trace event. -/
def analyzeBugM (apiKey : Option String) (videoFile : Option VFile)
    (codeContext : String) (history : List ChatEntry) (modelName : String)
    (w : World) : CallResult :=
  match apiKey with
  | none => ⟨.error .configMissing, [], history⟩
  | some _ =>
    match videoFile with
    | some f =>
      match fileToGenerativePart f with
      | .error e => ⟨.error (.videoFail e), [.encode], history⟩
      | .ok _part =>
        let prompt := assemblePrompt codeContext true history
        let disp := analyzeDispatch modelName prompt w.primAtt w.fbAtt w.jit
        ⟨finishCall disp.result, .encode :: disp.calls.map (fun c => Ev.call c.1), history⟩
    | none =>
      let prompt := assemblePrompt codeContext false history
      let disp := analyzeDispatch modelName prompt w.primAtt w.fbAtt w.jit
      ⟨finishCall disp.result, disp.calls.map (fun c => Ev.call c.1), history⟩

/-! ## Conversation State (`App.tsx`) -/

inductive Step where
  | UPLOAD : Step
  | ANALYZING : Step
  | RESULTS : Step
deriving DecidableEq

/-- The `App` component state: the two input hooks, the model selector, the
step, and the `AnalysisState` record. -/
structure AppState where
  videoFile : Option VFile
  codeContext : String
  modelName : String
  step : Step
  isLoading : Bool
  error : Option String
  history : List ChatEntry
  latestReport : Option BugReport

/-- The initial component state (also the state `handleReset` restores,
except that `handleReset` keeps the selected model). -/
def initialState : AppState :=
  ⟨none, "", "gemini-3-pro-preview", .UPLOAD, false, none, [], none⟩

/-- Model of `handleReset`. -/
def resetState (s : AppState) : AppState :=
  ⟨none, "", s.modelName, .UPLOAD, false, none, [], none⟩

/-- Model of `handleAnalyze`, as a function of the `analyzeBug` outcome the `await`
resolves to (the UI layer types it as a `BugReport`) and of the two
`Date.now()` readings. A blank code snippet is rejected up front (the
`alert` path). On success the history becomes the synthetic initial user
entry plus the model entry; on failure the history is left as it was and
the step returns to `UPLOAD`. -/
def handleAnalyze (s : AppState) (outcome : Except String BugReport)
    (t1 t2 : ℕ) : AppState :=
  if (jsTrim s.codeContext = "") then s
  else
    match outcome with
    | .ok report =>
      { s with step := .RESULTS, isLoading := false, error := none,
               history := [⟨.user,
                 .inl (if s.videoFile.isSome then "Analyze this bug with the attached video."
                       else "Analyze this code."), t1⟩,
                 ⟨.model, .inr report, t2⟩],
               latestReport := some report }
    | .error msg =>
      { s with step := .UPLOAD, isLoading := false,
               error := some (if msg = "" then "Failed to analyze the vibe." else msg) }

/-- Model of `handleRefine feedback`: no-op without a latest report; otherwise the
user's feedback is appended optimistically, then on success the model entry
is appended too, while on failure the history keeps the feedback entry as
its tail and an error is surfaced. The step is never changed. -/
def handleRefine (s : AppState) (feedback : String)
    (outcome : Except String BugReport) (t1 t2 : ℕ) : AppState :=
  match s.latestReport with
  | none => s
  | some _ =>
    let h1 := s.history ++ [⟨.user, .inl feedback, t1⟩]
    match outcome with
    | .ok report =>
      { s with isLoading := false, error := none,
               history := h1 ++ [⟨.model, .inr report, t2⟩],
               latestReport := some report }
    | .error msg =>
      { s with isLoading := false, history := h1,
               error := some ("Failed to refine fix: " ++ msg) }

/-- The session states the interface can actually reach: `handleAnalyze`
fires only from the upload screen, `handleRefine` only from the results
screen, the inputs and the model selector are editable only on the upload
screen, and the navbar reset is always available. -/
inductive Reach : AppState → Prop where
  | init : Reach initialState
  | analyze {s} (outcome t1 t2) : Reach s → s.step = .UPLOAD →
      Reach (handleAnalyze s outcome t1 t2)
  | refine {s} (feedback outcome t1 t2) : Reach s → s.step = .RESULTS →
      Reach (handleRefine s feedback outcome t1 t2)
  | reset {s} : Reach s → Reach (resetState s)
  | setInputs {s} (v c m) : Reach s → s.step = .UPLOAD →
      Reach { s with videoFile := v, codeContext := c, modelName := m }

/-- History `b` extends `a` on the right. -/
def HistExtends (a b : List ChatEntry) : Prop :=
  ∃ t, b = a ++ t

/-- History `b` strictly extends `a` on the right. -/
def HistExtendsStrict (a b : List ChatEntry) : Prop :=
  ∃ t, t ≠ [] ∧ b = a ++ t

/-! ## Shared concrete fixtures -/

/-- A report as a refinement session would hold it. -/
def demoReport : BugReport :=
  ⟨"Button invisible", "Frustrated", "src/App.css", "Set opacity to 1", "opacity: 1"⟩

/-- The history a first refinement call receives: the synthetic initial
user entry, the first report, and the new feedback already appended
optimistically by `handleRefine`. -/
def demoHist3 : List ChatEntry :=
  [⟨.user, .inl "Analyze this bug with the attached video.", 100⟩,
   ⟨.model, .inr demoReport, 101⟩,
   ⟨.user, .inl "make it red", 102⟩]

/-- A readable video file. -/
def demoFile : VFile := ⟨"data:video/mp4;base64,AAAA", "video/mp4"⟩

/-- A world whose every dispatch succeeds with the reply text `true`. -/
def demoWorld : World :=
  ⟨fun _ => .ok (some "true"), fun _ => .ok (some "true"), fun _ => 0⟩

/-! ## Claim theorems -/

/-- C8: a `generateWithRetry` dispatch whose first attempt fails with a
message classified non-transient (no `429`/quota/`503`/`500` match — bad
request, permission denied, not-found) makes exactly one attempt, awaits no
backoff delay, and throws that error unchanged. -/
theorem c8_permanent_fails_once (att : ℕ → Attempt) (jit : ℕ → ℕ) (m : String)
    (h0 : att 0 = .error m) (hperm : isTransientMsg m = false) :
    generateWithRetry att jit 3 = ⟨.error m, [], 1⟩ := by
  simp [generateWithRetry, retryAux, h0, hperm]

/-- Witness for C8 at the concrete permanent failure `400 Bad Request`. -/
theorem c8_permanent_fails_once_witness :
    isTransientMsg "400 Bad Request" = false ∧
    generateWithRetry (fun _ => .error "400 Bad Request") (fun _ => 250) 3 =
      ⟨.error "400 Bad Request", [], 1⟩ :=
  ⟨by decide, c8_permanent_fails_once _ _ _ rfl (by decide)⟩

/-- C3: the retry loop's own comment says transient covers "server errors
(5xx)", but the code tests only the substrings `503` and `500`: an error
whose every occurrence is `502 Bad Gateway` (a server-side fault the claim
classifies transient) is not retried at all — one attempt, no backoff —
instead of being attempted three times. -/
theorem c3_code_bug_502_not_retried :
    generateWithRetry (fun _ => .error "502 Bad Gateway") (fun _ => 0) 3 =
      ⟨.error "502 Bad Gateway", [], 1⟩ ∧
    isServerMsg "502 Bad Gateway" = false ∧
    isTransientMsg "429 rate limited" = true ∧ isTransientMsg "503 unavailable" = true :=
  ⟨rfl, by decide, by decide, by decide⟩

/-- Retry mechanics for failures the code itself classifies transient:
three attempts exactly, doubling backoff plus bounded jitter giving
strictly increasing delays, and the last attempt's error surfaced
verbatim. (The quota/server classification applied is the code's own —
see the 502 finding above for where it falls short of 5xx.) -/
theorem retry_transient_three_attempts (att : ℕ → Attempt) (jit : ℕ → ℕ)
    (h : ∀ i < 3, ∃ m, att i = .error m ∧ isTransientMsg m = true)
    (hj : ∀ i, jit i < 500) :
    ∃ m2, att 2 = .error m2 ∧
      generateWithRetry att jit 3 = ⟨.error m2, [1000 + jit 0, 2000 + jit 1], 3⟩ ∧
      1000 + jit 0 < 2000 + jit 1 := by
  obtain ⟨m0, h0, ht0⟩ := h 0 (by omega)
  obtain ⟨m1, h1, ht1⟩ := h 1 (by omega)
  obtain ⟨m2, h2, ht2⟩ := h 2 (by omega)
  refine ⟨m2, h2, ?_, by have := hj 0; omega⟩
  simp [generateWithRetry, retryAux, h0, ht0, h1, ht1, h2, ht2]

/-- Witness for the retry-mechanics statement at a constant quota error. -/
theorem retry_transient_three_attempts_witness :
    generateWithRetry (fun _ => .error "429 rate limited") (fun _ => 123) 3 =
      ⟨.error "429 rate limited", [1123, 2123], 3⟩ := by
  obtain ⟨m2, hm2, hrun, _⟩ := retry_transient_three_attempts
    (fun _ => .error "429 rate limited") (fun _ => 123)
    (fun i _ => ⟨"429 rate limited", rfl, by decide⟩) (fun i => by norm_num)
  have hm : m2 = "429 rate limited" := by
    have := hm2
    simp at this
    exact this.symm
  rw [hm] at hrun
  simpa using hrun

/-- C9: calling `analyzeBug` with the API key absent from the process
configuration fails at once with the configuration error, with no video
encoding, no dispatch — an empty effect trace — whatever the other inputs
and however the network would have behaved. -/
theorem c9_missing_key_fails_first (videoFile : Option VFile) (codeContext : String)
    (history : List ChatEntry) (modelName : String) (w : World) :
    analyzeBugM none videoFile codeContext history modelName w =
      ⟨.error .configMissing, [], history⟩ ∧
    surfaceMessage modelName .configMissing =
      "API Key is missing. Please ensure process.env.API_KEY is correctly configured." :=
  ⟨rfl, rfl⟩

/-- Witness for C9 at concrete inputs. -/
theorem c9_missing_key_fails_first_witness :
    analyzeBugM none (some demoFile) "const x = 1" demoHist3 premiumModel demoWorld =
      ⟨.error .configMissing, [], demoHist3⟩ :=
  (c9_missing_key_fails_first (some demoFile) "const x = 1" demoHist3
    premiumModel demoWorld).1

/-- C10: `analyzeBug` leaves the caller's history exactly as it received
it, on every control path — success, configuration failure, video read
failure, dispatch failure, and decode failure alike. -/
theorem c10_history_unchanged (apiKey : Option String) (videoFile : Option VFile)
    (codeContext : String) (history : List ChatEntry) (modelName : String)
    (w : World) :
    (analyzeBugM apiKey videoFile codeContext history modelName w).histOut = history := by
  cases apiKey with
  | none => rfl
  | some k =>
    cases videoFile with
    | none => rfl
    | some f =>
      simp only [analyzeBugM]
      split <;> rfl

/-- Witness for C10 at concrete inputs, a failing dispatch included. -/
theorem c10_history_unchanged_witness :
    (analyzeBugM (some "k") (some demoFile) "const x = 1" demoHist3 premiumModel
      ⟨fun _ => .error "400 bad", fun _ => .error "400 bad", fun _ => 0⟩).histOut =
      demoHist3 :=
  c10_history_unchanged (some "k") (some demoFile) "const x = 1" demoHist3
    premiumModel ⟨fun _ => .error "400 bad", fun _ => .error "400 bad", fun _ => 0⟩

/-- C2: when the primary model is the premium identifier and its dispatch
ends in a quota-classified error, exactly one fallback dispatch of the very
same request is issued, to `gemini-2.5-flash`; a fallback failure is
discarded in favour of the primary's original error, a fallback success is
returned; and with any other primary model the primary error propagates
with no fallback dispatch at all. -/
theorem c2_fallback_policy (contents : String) (primAtt fbAtt : ℕ → Attempt)
    (jit : ℕ → ℕ) (m : String)
    (hp : (generateWithRetry primAtt jit 3).result = .error m) :
    (isQuotaMsg m = true →
      (analyzeDispatch premiumModel contents primAtt fbAtt jit).calls =
        [(premiumModel, contents), (fallbackModel, contents)] ∧
      (∀ fm, (generateWithRetry fbAtt jit 3).result = .error fm →
        (analyzeDispatch premiumModel contents primAtt fbAtt jit).result = .error m) ∧
      (∀ r, (generateWithRetry fbAtt jit 3).result = .ok r →
        (analyzeDispatch premiumModel contents primAtt fbAtt jit).result = .ok r)) ∧
    (∀ name, name ≠ premiumModel →
      analyzeDispatch name contents primAtt fbAtt jit = ⟨.error m, [(name, contents)]⟩) := by
  constructor
  · intro hq
    refine ⟨?_, ?_, ?_⟩
    · simp [analyzeDispatch, hp, hq]
      split <;> rfl
    · intro fm hf
      simp [analyzeDispatch, hp, hq, hf]
    · intro r hr
      simp [analyzeDispatch, hp, hq, hr]
  · intro name hname
    simp [analyzeDispatch, hp, hname]

/-- Witness for C2: a premium dispatch exhausting retries on
`429 RESOURCE_EXHAUSTED` falls back once to `gemini-2.5-flash`, and when
the fallback dies too (`503`), the surfaced error is the primary's; a
non-premium dispatch with the same failure never falls back. -/
theorem c2_fallback_policy_witness :
    (analyzeDispatch premiumModel "req" (fun _ => .error "429 RESOURCE_EXHAUSTED")
      (fun _ => .error "503 overloaded") (fun _ => 0)).calls =
      [(premiumModel, "req"), (fallbackModel, "req")] ∧
    (analyzeDispatch premiumModel "req" (fun _ => .error "429 RESOURCE_EXHAUSTED")
      (fun _ => .error "503 overloaded") (fun _ => 0)).result =
      .error "429 RESOURCE_EXHAUSTED" ∧
    analyzeDispatch "gemini-2.5-flash" "req" (fun _ => .error "429 RESOURCE_EXHAUSTED")
      (fun _ => .error "503 overloaded") (fun _ => 0) =
      ⟨.error "429 RESOURCE_EXHAUSTED", [("gemini-2.5-flash", "req")]⟩ := by
  have h := c2_fallback_policy "req" (fun _ => .error "429 RESOURCE_EXHAUSTED")
    (fun _ => .error "503 overloaded") (fun _ => 0) "429 RESOURCE_EXHAUSTED" rfl
  exact ⟨(h.1 (by decide)).1, (h.1 (by decide)).2.1 "503 overloaded" rfl,
    h.2 "gemini-2.5-flash" (by decide)⟩

/-- Dispatch calls contribute no Content Encoder events. -/
theorem countEncode_callMap (l : List (String × String)) :
    countEncode (l.map (fun c => Ev.call c.1)) = 0 := by
  induction l with
  | nil => rfl
  | cons a t ih => simpa [countEncode, List.filter, Ev.isEnc] using ih

/-- The count `countEncode` is additive over a session's concatenated traces. -/
theorem countEncode_append (a b : List Ev) :
    countEncode (a ++ b) = countEncode a + countEncode b := by
  simp [countEncode, List.filter_append]

/-- C4 counterexample: in a session holding a video, the refinement call
(non-empty history) invokes `fileToGenerativePart` again — one encoder
invocation in its own trace — so the session's two calls encode the
attachment twice, not at most once. -/
theorem c4_cex_reencodes_per_call :
    countEncode (analyzeBugM (some "k") (some demoFile) "const x = 1" demoHist3
      "gemini-2.5-flash" demoWorld).events = 1 ∧
    countEncode ((analyzeBugM (some "k") (some demoFile) "const x = 1" []
        "gemini-2.5-flash" demoWorld).events ++
      (analyzeBugM (some "k") (some demoFile) "const x = 1" demoHist3
        "gemini-2.5-flash" demoWorld).events) = 2 :=
  ⟨rfl, rfl⟩

/-- C4 amended: the encoded part is re-derived per call, not reused —
every `analyzeBug` call that carries a media file invokes the Content
Encoder exactly once (re-reading the file), including every refinement
call; only a call without media skips encoding. What a session reuses
across refinements is the source `File` reference, not the encoded part. -/
theorem c4_amended_encode_per_call (k : String) (f : VFile) (code : String)
    (hist : List ChatEntry) (model : String) (w : World) :
    countEncode (analyzeBugM (some k) (some f) code hist model w).events = 1 ∧
    countEncode (analyzeBugM (some k) none code hist model w).events = 0 := by
  constructor
  · simp only [analyzeBugM]
    split
    · rfl
    · have h := countEncode_callMap
        (analyzeDispatch model (assemblePrompt code true hist) w.primAtt w.fbAtt w.jit).calls
      simpa [countEncode, List.filter, Ev.isEnc] using h
  · exact countEncode_callMap
      (analyzeDispatch model (assemblePrompt code false hist) w.primAtt w.fbAtt w.jit).calls

/-- Witness for C4's amended statement at concrete inputs. -/
theorem c4_amended_encode_per_call_witness :
    countEncode (analyzeBugM (some "k") (some demoFile) "let y = 2" []
      premiumModel demoWorld).events = 1 ∧
    countEncode (analyzeBugM (some "k") none "let y = 2" []
      premiumModel demoWorld).events = 0 :=
  c4_amended_encode_per_call "k" demoFile "let y = 2" [] premiumModel demoWorld

/-- The operation `handleRefine` never changes the step. -/
theorem handleRefine_step (s : AppState) (feedback : String)
    (outcome : Except String BugReport) (t1 t2 : ℕ) :
    (handleRefine s feedback outcome t1 t2).step = s.step := by
  unfold handleRefine
  repeat' split
  all_goals rfl

/-- A blank snippet makes `handleAnalyze` bail out unchanged. -/
theorem handleAnalyze_blank (s : AppState) (outcome : Except String BugReport)
    (t1 t2 : ℕ) (hg : jsTrim s.codeContext = "") :
    handleAnalyze s outcome t1 t2 = s := by
  simp [handleAnalyze, hg]

/-- A failed analysis leaves the history untouched. -/
theorem handleAnalyze_err_history (s : AppState) (m : String) (t1 t2 : ℕ) :
    (handleAnalyze s (.error m) t1 t2).history = s.history := by
  by_cases hg : jsTrim s.codeContext = "" <;> simp [handleAnalyze, hg]

/-- The history a successful analysis installs. -/
theorem handleAnalyze_ok_history (s : AppState) (r : BugReport) (t1 t2 : ℕ)
    (hg : jsTrim s.codeContext ≠ "") :
    (handleAnalyze s (.ok r) t1 t2).history =
      [⟨.user, .inl (if s.videoFile.isSome then "Analyze this bug with the attached video."
                     else "Analyze this code."), t1⟩,
       ⟨.model, .inr r, t2⟩] := by
  simp [handleAnalyze, hg]

/-- A successful analysis records its report. -/
theorem handleAnalyze_ok_report (s : AppState) (r : BugReport) (t1 t2 : ℕ)
    (hg : jsTrim s.codeContext ≠ "") :
    (handleAnalyze s (.ok r) t1 t2).latestReport = some r := by
  simp [handleAnalyze, hg]

/-- Without a latest report, `handleRefine` is a no-op. -/
theorem handleRefine_none (s : AppState) (feedback : String)
    (outcome : Except String BugReport) (t1 t2 : ℕ) (h : s.latestReport = none) :
    handleRefine s feedback outcome t1 t2 = s := by
  simp [handleRefine, h]

/-- A successful refinement appends the feedback entry then the report. -/
theorem handleRefine_ok_history (s : AppState) (feedback : String) (r r0 : BugReport)
    (t1 t2 : ℕ) (h : s.latestReport = some r0) :
    (handleRefine s feedback (.ok r) t1 t2).history =
      s.history ++ [⟨.user, .inl feedback, t1⟩, ⟨.model, .inr r, t2⟩] := by
  simp [handleRefine, h]

/-- A failed refinement keeps exactly the optimistic feedback entry. -/
theorem handleRefine_err_history (s : AppState) (feedback m : String) (r0 : BugReport)
    (t1 t2 : ℕ) (h : s.latestReport = some r0) :
    (handleRefine s feedback (.error m) t1 t2).history =
      s.history ++ [⟨.user, .inl feedback, t1⟩] := by
  simp [handleRefine, h]

/-- In every reachable state showing the upload screen the history is
empty: sessions reach `handleAnalyze` only with no conversation yet. -/
theorem reach_upload_history_nil {s : AppState} (h : Reach s) :
    s.step = .UPLOAD → s.history = [] := by
  induction h with
  | init => intro _; rfl
  | @analyze s outcome t1 t2 _ hUp ih =>
    intro h2
    by_cases hg : jsTrim s.codeContext = ""
    · simpa [handleAnalyze, hg] using ih hUp
    · cases outcome with
      | ok r => simp [handleAnalyze, hg] at h2
      | error m => simpa [handleAnalyze, hg] using ih hUp
  | @refine s feedback outcome t1 t2 _ hRes ih =>
    intro h2
    rw [handleRefine_step, hRes] at h2
    exact absurd h2 (by decide)
  | reset => intro _; rfl
  | @setInputs s v c m _ hUp ih =>
    intro _
    exact ih hUp

/-- C7 counterexample: a failed analysis call appends nothing at all — from
the reachable pre-call state the history is `[]` before and `[]` after, so
the history before the call is *not* a strict prefix of the history after
it, and no user entry is left as its tail. -/
theorem c7_cex_failed_analyze_appends_nothing :
    Reach { initialState with codeContext := "const x = 1" } ∧
    (handleAnalyze { initialState with codeContext := "const x = 1" }
      (.error "network down") 0 0).history = [] ∧
    ¬ HistExtendsStrict
        ({ initialState with codeContext := "const x = 1" } : AppState).history
        (handleAnalyze { initialState with codeContext := "const x = 1" }
          (.error "network down") 0 0).history := by
  refine ⟨Reach.setInputs none "const x = 1" "gemini-3-pro-preview" Reach.init rfl,
    handleAnalyze_err_history _ _ 0 0, ?_⟩
  rintro ⟨t, hne, ht⟩
  rw [handleAnalyze_err_history] at ht
  have ht' : ([] : List ChatEntry) = [] ++ t := ht
  simp only [List.nil_append] at ht'
  exact hne ht'.symm

/-- C7 amended: across every reachable session state, each analysis or
refinement call only ever appends: the prior history is a (possibly equal)
prefix of the new one; it is a *strict* prefix on every successful
analysis with a non-blank snippet and on every refinement with a report
present — but a failed analysis call leaves the history exactly unchanged,
while a failed refinement still retains the optimistically appended user
feedback entry as the tail. -/
theorem c7_amended_append_only (s : AppState) (hs : Reach s)
    (outcome : Except String BugReport) (feedback : String) (t1 t2 : ℕ) :
    (s.step = .UPLOAD →
      HistExtends s.history (handleAnalyze s outcome t1 t2).history ∧
      (∀ r, outcome = .ok r → jsTrim s.codeContext ≠ "" →
        HistExtendsStrict s.history (handleAnalyze s outcome t1 t2).history) ∧
      (∀ m, outcome = .error m →
        (handleAnalyze s outcome t1 t2).history = s.history)) ∧
    (HistExtends s.history (handleRefine s feedback outcome t1 t2).history ∧
     (∀ r0, s.latestReport = some r0 →
        HistExtendsStrict s.history (handleRefine s feedback outcome t1 t2).history ∧
        (∀ m, outcome = .error m →
          (handleRefine s feedback outcome t1 t2).history =
            s.history ++ [⟨.user, .inl feedback, t1⟩]))) := by
  constructor
  · intro hUp
    have hnil : s.history = [] := reach_upload_history_nil hs hUp
    refine ⟨?_, ?_, ?_⟩
    · by_cases hg : jsTrim s.codeContext = ""
      · exact ⟨[], by rw [handleAnalyze_blank s outcome t1 t2 hg]; simp⟩
      · cases outcome with
        | ok r =>
          refine ⟨[⟨.user, .inl (if s.videoFile.isSome then
              "Analyze this bug with the attached video." else "Analyze this code."), t1⟩,
            ⟨.model, .inr r, t2⟩], ?_⟩
          rw [handleAnalyze_ok_history s r t1 t2 hg, hnil]
          simp
        | error m =>
          exact ⟨[], by rw [handleAnalyze_err_history]; simp⟩
    · intro r hr hg
      subst hr
      refine ⟨[⟨.user, .inl (if s.videoFile.isSome then
          "Analyze this bug with the attached video." else "Analyze this code."), t1⟩,
        ⟨.model, .inr r, t2⟩], by simp, ?_⟩
      rw [handleAnalyze_ok_history s r t1 t2 hg, hnil]
      simp
    · intro m hm
      subst hm
      exact handleAnalyze_err_history s m t1 t2
  · cases hrep : s.latestReport with
    | none =>
      refine ⟨⟨[], by rw [handleRefine_none s feedback outcome t1 t2 hrep]; simp⟩, ?_⟩
      intro r0 h0
      exact absurd h0 (by simp)
    | some r0 =>
      constructor
      · cases outcome with
        | ok r =>
          exact ⟨[⟨.user, .inl feedback, t1⟩, ⟨.model, .inr r, t2⟩],
            handleRefine_ok_history s feedback r r0 t1 t2 hrep⟩
        | error m =>
          exact ⟨[⟨.user, .inl feedback, t1⟩],
            handleRefine_err_history s feedback m r0 t1 t2 hrep⟩
      · intro r1 _
        cases outcome with
        | ok r =>
          refine ⟨⟨[⟨.user, .inl feedback, t1⟩, ⟨.model, .inr r, t2⟩], by simp,
            handleRefine_ok_history s feedback r r0 t1 t2 hrep⟩, ?_⟩
          intro m hm
          exact absurd hm (by simp)
        | error m =>
          refine ⟨⟨[⟨.user, .inl feedback, t1⟩], by simp,
            handleRefine_err_history s feedback m r0 t1 t2 hrep⟩, ?_⟩
          intro m2 _
          exact handleRefine_err_history s feedback m r0 t1 t2 hrep

/-- Witness for C7's amended statement: a successful refinement from a
concrete reachable results-screen state strictly extends the history. -/
theorem c7_amended_append_only_witness :
    HistExtendsStrict
      (handleAnalyze { initialState with codeContext := "const x = 1" }
        (.ok demoReport) 0 1).history
      (handleRefine (handleAnalyze { initialState with codeContext := "const x = 1" }
        (.ok demoReport) 0 1) "make it red" (.ok demoReport) 2 3).history := by
  have hreach : Reach (handleAnalyze { initialState with codeContext := "const x = 1" }
      (.ok demoReport) 0 1) :=
    Reach.analyze (.ok demoReport) 0 1
      (Reach.setInputs none "const x = 1" "gemini-3-pro-preview" Reach.init rfl) rfl
  exact ((c7_amended_append_only _ hreach (.ok demoReport) "make it red" 2 3).2.2
    demoReport (handleAnalyze_ok_report _ demoReport 0 1 (by decide))).1

set_option maxRecDepth 10000 in
/-- C6: the Prompt Assembler (i) embeds the code verbatim inside the
triple-backtick block, (ii) emits a different prompt according to whether
media is present, (iii) serializes history entries in their original
order (appending an entry appends its serialization), and (iv) on the
refinement scenario — two prior entries plus the literal feedback
`make it red` — produces exactly the prompt whose serialized history holds
both prior entries in order (the model turn as its JSON form) followed by
the feedback line and the trailing refinement instruction. -/
theorem c6_prompt_assembler :
    (∀ (code : String) (v : Bool) (hist : List ChatEntry), ∃ rest,
      assemblePrompt code v hist =
        "\n  Here is the relevant source code:\n  ```\n  " ++
          (code ++ ("\n  ```\n  " ++ rest))) ∧
    (∀ (code : String) (hist : List ChatEntry),
      assemblePrompt code true hist ≠ assemblePrompt code false hist) ∧
    (∀ (h : List ChatEntry) (e : ChatEntry),
      serializeHistory (h ++ [e]) = serializeHistory h ++ serializeEntry e) ∧
    assemblePrompt "const x = 1" true demoHist3 =
      "\n  Here is the relevant source code:\n  ```\n  const x = 1\n  ```\n  \nPlease analyze the attached video and this code to find the bug and provide a fix.\n\n--- Conversation History ---\nUser: Analyze this bug with the attached video.\nVibeFix: \x7b\"bug_summary\":\"Button invisible\",\"user_sentiment\":\"Frustrated\",\"file_to_edit\":\"src/App.css\",\"explanation\":\"Set opacity to 1\",\"code_patch\":\"opacity: 1\"\x7d\nUser: make it red\n\n\nUser's Latest Feedback: Please refine the fix based on the above history." := by
  refine ⟨?_, ?_, ?_, rfl⟩
  · intro code v hist
    by_cases he : hist.isEmpty
    · refine ⟨(if v then
          "\nPlease analyze the attached video and this code to find the bug and provide a fix."
        else
          "\nNo video was provided. Please analyze this code for bugs, logic errors, or styling issues."), ?_⟩
      simp [assemblePrompt, he, String.append_assoc]
    · refine ⟨(if v then
          "\nPlease analyze the attached video and this code to find the bug and provide a fix."
        else
          "\nNo video was provided. Please analyze this code for bugs, logic errors, or styling issues.") ++
        ("\n\n--- Conversation History ---\n" ++ (serializeHistory hist ++
          "\n\nUser's Latest Feedback: Please refine the fix based on the above history.")), ?_⟩
      simp [assemblePrompt, he, String.append_assoc]
  · intro code hist h
    have hd := congrArg String.length h
    by_cases he : hist.isEmpty <;>
      simp only [assemblePrompt, he, if_true, if_false, Bool.false_eq_true,
        String.length_append] at hd <;>
    · rw [show ("\nPlease analyze the attached video and this code to find the bug and provide a fix.").length = 83 from rfl,
        show ("\nNo video was provided. Please analyze this code for bugs, logic errors, or styling issues.").length = 91 from rfl] at hd
      omega
  · intro h e
    induction h with
    | nil => simp [serializeHistory, String.append_empty]
    | cons a t ih => simp [serializeHistory, ih, String.append_assoc]

/-- Witness for C6 at concrete inputs: the with-video and without-video
prompts for the scenario-D history differ. -/
theorem c6_prompt_assembler_witness :
    assemblePrompt "const x = 1" true demoHist3 ≠
      assemblePrompt "const x = 1" false demoHist3 :=
  c6_prompt_assembler.2.1 "const x = 1" demoHist3

/-! ### Whitespace-trimming lemmas for the fence/parse interaction -/

theorem strData_append (a b : String) : (a ++ b).data = a.data ++ b.data := rfl

theorem dropWhile_cons_of_neg {p : Char → Bool} {c : Char} (h : p c = false)
    (l : List Char) : (c :: l).dropWhile p = c :: l := by
  simp [List.dropWhile_cons, h]

theorem rdropWhile_concat_of_neg {p : Char → Bool} {c : Char} (h : p c = false)
    (l : List Char) : rdropWhile p (l ++ [c]) = l ++ [c] := by
  simp [rdropWhile, List.dropWhile_cons, h]

theorem rdropWhile_concat_of_pos {p : Char → Bool} {c : Char} (h : p c = true)
    (l : List Char) : rdropWhile p (l ++ [c]) = rdropWhile p l := by
  simp [rdropWhile, List.dropWhile_cons, h]

theorem rdropWhile_cons_of_neg {p : Char → Bool} {c : Char} (h : p c = false)
    (l : List Char) : rdropWhile p (c :: l) = c :: rdropWhile p l := by
  simp only [rdropWhile, List.reverse_cons]
  rw [List.dropWhile_append]
  split
  · next hemp =>
    simp only [List.isEmpty_iff] at hemp
    simp [hemp, List.dropWhile_cons, h]
  · simp

/-- The head of `dropWhile p l` (when any) refutes `p`. -/
theorem dropWhile_shape (p : Char → Bool) (l : List Char) :
    l.dropWhile p = [] ∨ ∃ c t, l.dropWhile p = c :: t ∧ p c = false := by
  induction l with
  | nil => exact .inl rfl
  | cons a l ih =>
    by_cases h : p a
    · simpa [List.dropWhile_cons, h] using ih
    · exact .inr ⟨a, l, by simp [List.dropWhile_cons, h], by simp [h]⟩

theorem dropWhile_idem (p : Char → Bool) (l : List Char) :
    (l.dropWhile p).dropWhile p = l.dropWhile p := by
  rcases dropWhile_shape p l with h | ⟨c, t, h, hc⟩
  · rw [h]; rfl
  · rw [h]; exact dropWhile_cons_of_neg hc t

theorem rdropWhile_idem (p : Char → Bool) (l : List Char) :
    rdropWhile p (rdropWhile p l) = rdropWhile p l := by
  simp [rdropWhile, dropWhile_idem]

theorem trimJson_idem (l : List Char) : trimJson (trimJson l) = trimJson l := by
  unfold trimJson
  rcases dropWhile_shape wsJson l with h | ⟨c, t, h, hc⟩
  · rw [h]; rfl
  · rw [h, rdropWhile_cons_of_neg hc, dropWhile_cons_of_neg hc,
      rdropWhile_cons_of_neg hc, rdropWhile_idem]

/-- Re-trimming what `jsonParse` will trim anyway does not change a parse. -/
theorem jsonParse_mk_trimJson (l : List Char) :
    jsonParse (String.mk (trimJson l)) = jsonParse (String.mk l) := by
  simp [jsonParse, trimJson_idem]

/-- After the leading fence is stripped, the trailing-fence strip recovers
exactly the JS-trimmed payload. -/
theorem stripTrailing_after (pd : List Char) :
    stripTrailingFence (List.dropWhile wsJs (pd ++ "\n```".data)) = trimJs pd := by
  rcases dropWhile_shape wsJs pd with h | ⟨c, t, h, hc⟩
  · have hd : List.dropWhile wsJs (pd ++ "\n```".data) = ['`', '`', '`'] := by
      rw [List.dropWhile_append, h]; rfl
    rw [hd]
    unfold trimJs
    rw [h]
    rfl
  · have hd : List.dropWhile wsJs (pd ++ "\n```".data) = (c :: t) ++ "\n```".data := by
      rw [List.dropWhile_append, h]; rfl
    rw [hd]
    unfold stripTrailingFence
    have hsuffix : fenceChars.isSuffixOf ((c :: t) ++ "\n```".data) = true := by
      unfold List.isSuffixOf
      rw [List.reverse_append, show ("\n```".data).reverse = '`' :: '`' :: '`' :: ['\n'] from rfl]
      rfl
    rw [if_pos hsuffix]
    have hlen : ((c :: t) ++ "\n```".data).length - 3 = (c :: t).length + 1 := by
      rw [List.length_append, show ("\n```".data).length = 4 from rfl]
      omega
    rw [hlen, List.take_append, show List.take 1 ("\n```".data) = ['\n'] from rfl,
      rdropWhile_concat_of_pos (show wsJs '\n' = true from rfl)]
    unfold trimJs
    rw [h]

/-- Stripping a `` ```json ``-tagged fence pair recovers the trimmed
payload. -/
theorem stripFences_fencedJson (pd : List Char) :
    stripFences ("```json\n".data ++ (pd ++ "\n```".data)) = trimJs pd := by
  have hassoc : "```json\n".data ++ (pd ++ "\n```".data)
      = ("```json\n".data ++ (pd ++ "\n``".data)) ++ ['`'] := by
    rw [show ("\n```".data : List Char) = "\n``".data ++ ['`'] from rfl]
    simp [List.append_assoc]
  have hcond : fenceChars.isPrefixOf
      (trimJs ("```json\n".data ++ (pd ++ "\n```".data))) = true := by
    unfold trimJs
    rw [show List.dropWhile wsJs ("```json\n".data ++ (pd ++ "\n```".data))
        = "```json\n".data ++ (pd ++ "\n```".data) from rfl]
    rw [hassoc, rdropWhile_concat_of_neg (show wsJs '`' = false from rfl), ← hassoc]
    rfl
  unfold stripFences
  rw [if_pos hcond]
  rw [show stripLeadingFence ("```json\n".data ++ (pd ++ "\n```".data))
      = List.dropWhile wsJs (pd ++ "\n```".data) from rfl]
  exact stripTrailing_after pd

/-- Stripping an untagged fence pair recovers the trimmed payload. -/
theorem stripFences_fencedPlain (pd : List Char) :
    stripFences ("```\n".data ++ (pd ++ "\n```".data)) = trimJs pd := by
  have hassoc : "```\n".data ++ (pd ++ "\n```".data)
      = ("```\n".data ++ (pd ++ "\n``".data)) ++ ['`'] := by
    rw [show ("\n```".data : List Char) = "\n``".data ++ ['`'] from rfl]
    simp [List.append_assoc]
  have hcond : fenceChars.isPrefixOf
      (trimJs ("```\n".data ++ (pd ++ "\n```".data))) = true := by
    unfold trimJs
    rw [show List.dropWhile wsJs ("```\n".data ++ (pd ++ "\n```".data))
        = "```\n".data ++ (pd ++ "\n```".data) from rfl]
    rw [hassoc, rdropWhile_concat_of_neg (show wsJs '`' = false from rfl), ← hassoc]
    rfl
  unfold stripFences
  rw [if_pos hcond]
  rw [show stripLeadingFence ("```\n".data ++ (pd ++ "\n```".data))
      = List.dropWhile wsJs (pd ++ "\n```".data) from rfl]
  exact stripTrailing_after pd

/-- C1 counterexample: a reply that parses as structured data but carries
only `bug_summary` — four of the five required fields missing — does *not*
make the decoder fail: the unchecked `as BugReport` cast returns the
partially-populated object as the report. -/
theorem c1_cex_missing_fields_accepted :
    decodeResponse (some "\x7b\"bug_summary\": \"x\"\x7d") =
      .ok (Json.obj [("bug_summary", Json.str "x")]) ∧
    (Json.obj [("bug_summary", Json.str "x")]).hasField "user_sentiment" = false ∧
    (Json.obj [("bug_summary", Json.str "x")]).hasField "file_to_edit" = false ∧
    (Json.obj [("bug_summary", Json.str "x")]).hasField "explanation" = false ∧
    (Json.obj [("bug_summary", Json.str "x")]).hasField "code_patch" = false :=
  ⟨rfl, rfl, rfl, rfl, rfl⟩

/-- C1 amended: the Response Decoder performs no field validation at all —
whenever the fence-stripped reply text parses as JSON, the parsed value is
returned as the report exactly as parsed, required fields present or not
(field presence is enforced only by the schema sent to the provider);
only an empty reply or unparseable text yields a decode failure. -/
theorem c1_amended_no_field_validation (t : String) (j : Json) (hne : t ≠ "")
    (hp : jsonParse (String.mk (stripFences t.data)) = some j) :
    decodeResponse (some t) = .ok j := by
  simp [decodeResponse, hne, hp]

/-- Witness for C1's amended statement: a complete five-field reply decodes
to exactly its parsed object. -/
theorem c1_amended_no_field_validation_witness :
    decodeResponse (some "\x7b\"bug_summary\":\"b\",\"user_sentiment\":\"Helpful\",\"file_to_edit\":\"a.css\",\"explanation\":\"e\",\"code_patch\":\"p\"\x7d") =
      .ok (Json.obj [("bug_summary", Json.str "b"), ("user_sentiment", Json.str "Helpful"),
        ("file_to_edit", Json.str "a.css"), ("explanation", Json.str "e"),
        ("code_patch", Json.str "p")]) :=
  c1_amended_no_field_validation _ _ (by decide) rfl

/-- C5 counterexample: fencing is *not* transparent for every payload. The
payload `` ```true `` decodes on its own (the decoder strips what looks
like its leading fence, leaving `true`), but the same payload wrapped in
fence markers does not: only the outer markers are stripped once, and the
remaining `` ```true `` text is not valid JSON — so the two decodes
differ. -/
theorem c5_cex_fenced_payload_differs :
    decodeResponse (some "```true") = .ok (Json.bool true) ∧
    decodeResponse (some ("```json\n" ++ "```true" ++ "\n```")) =
      .error .unparseable ∧
    decodeResponse (some ("```json\n" ++ "```true" ++ "\n```")) ≠
      decodeResponse (some "```true") := by
  refine ⟨rfl, rfl, ?_⟩
  intro h
  have h' : (Except.error DecodeErr.unparseable : Except DecodeErr Json) =
      .ok (Json.bool true) := h
  exact Except.noConfusion h'

/-- C5 amended: fence wrapping is decode-transparent for every payload
that does not itself begin with a fence marker (after trimming) — with the
further provisos, forced by the code, that the payload is non-empty (an
empty bare payload raises the empty-response error while its fenced form
raises a parse error) and that its surrounding whitespace is JSON
whitespace (the stripper's `\s` eats form feeds etc. that `JSON.parse`
would reject in the bare payload). For such payloads, wrapping in a
leading fence — tagged `json` or not — and a trailing fence decodes to
exactly the same result as the bare payload. -/
theorem decodeResponse_of_ne_empty (t : String) (h : t ≠ "") :
    decodeResponse (some t) =
      match jsonParse (String.mk (stripFences t.data)) with
      | some j => .ok j
      | none => .error .unparseable := by
  simp [decodeResponse, h]

theorem c5_amended_fence_transparent (p : String)
    (h1 : fenceChars.isPrefixOf (trimJs p.data) = false)
    (h2 : trimJs p.data = trimJson p.data)
    (h3 : p ≠ "") :
    decodeResponse (some ("```json\n" ++ p ++ "\n```")) = decodeResponse (some p) ∧
    decodeResponse (some ("```\n" ++ p ++ "\n```")) = decodeResponse (some p) := by
  have hbare : jsonParse (String.mk (stripFences p.data)) = jsonParse p := by
    unfold stripFences
    rw [if_neg (by simp [h1])]
  constructor
  · have hdata : ("```json\n" ++ p ++ "\n```").data
        = "```json\n".data ++ (p.data ++ "\n```".data) := by
      rw [strData_append, strData_append, List.append_assoc]
    have hne : ("```json\n" ++ p ++ "\n```") ≠ "" := by
      intro h
      have h' := congrArg String.data h
      rw [hdata] at h'
      exact absurd h' (by simp)
    rw [decodeResponse_of_ne_empty _ hne, decodeResponse_of_ne_empty _ h3,
      hdata, stripFences_fencedJson, h2, jsonParse_mk_trimJson, hbare]
  · have hdata : ("```\n" ++ p ++ "\n```").data
        = "```\n".data ++ (p.data ++ "\n```".data) := by
      rw [strData_append, strData_append, List.append_assoc]
    have hne : ("```\n" ++ p ++ "\n```") ≠ "" := by
      intro h
      have h' := congrArg String.data h
      rw [hdata] at h'
      exact absurd h' (by simp)
    rw [decodeResponse_of_ne_empty _ hne, decodeResponse_of_ne_empty _ h3,
      hdata, stripFences_fencedPlain, h2, jsonParse_mk_trimJson, hbare]

/-- Witness for C5's amended statement: an ordinary JSON object payload
decodes identically bare and fenced, in both fence styles. -/
theorem c5_amended_fence_transparent_witness :
    decodeResponse (some ("```json\n" ++ "\x7b\"a\": 1\x7d" ++ "\n```")) =
      decodeResponse (some "\x7b\"a\": 1\x7d") ∧
    decodeResponse (some ("```\n" ++ "\x7b\"a\": 1\x7d" ++ "\n```")) =
      decodeResponse (some "\x7b\"a\": 1\x7d") :=
  c5_amended_fence_transparent "\x7b\"a\": 1\x7d" (by decide) (by decide) (by decide)

end VibeFix
